import Mathlib

/-!
# vault_cert_revoker: discovery, selection, confirmation and revocation

A shallow embedding of `vault_cert_revoker/main.go`.

The program talks to the outside world (files, an HTTP backend, the terminal,
the `vault` binary).  Every such interaction is modelled in two halves:

* what the outside world answers is read from an `Env` record of oracles
  (one field per library call the program makes);
* what the program does to the outside world is appended to the `trace`
  of a `World` value that is threaded through the functions in program order.

The Go functions keep their names.  Loops that grow a slice with `append`
are folds that append at the end, as in the source.
-/

namespace VaultCertRevoker

/-! ## Data model -/

/-- Go `error` values are represented by their message. -/
abbrev Error := String

/-- The `Config` struct of the source (lines 22-30). -/
structure Config where
  VMURL : String
  VMQuery : String
  VaultPKIPath : String
  VMTimeoutSecs : Int
  CACertPath : String
  ClientCertPath : String
  ClientKeyPath : String
deriving DecidableEq

/-- The `Certificate` struct of the source (lines 33-37). -/
structure Certificate where
  CommonName : String
  OrganizationalUnit : String
  SerialNumber : String
deriving DecidableEq

/-- A Go `map[string]string`, read only.  Indexing a missing key yields the
zero value of `string`, the empty string. -/
abbrev GoMap := List (String × String)

/-- Go map indexing `m[k]` on a `map[string]string`. -/
def GoMap.index (m : GoMap) (k : String) : String :=
  (m.lookup k).getD ""

/-- One entry of `data.result` in the decoded response; only `metric` is
consumed by the program, `value` is decoded and ignored. -/
structure Row where
  Metric : GoMap
deriving DecidableEq

/-- The `data` object of the decoded response. -/
structure VMData where
  Result : List Row
deriving DecidableEq

/-- The anonymous struct the response body is decoded into (lines 107-114). -/
structure VMResult where
  Data : VMData
deriving DecidableEq

/-- The parts of `http.Response` the program reads. -/
structure Response where
  StatusCode : Nat
  Status : String
  Body : String
deriving DecidableEq

/-- The `http.Client` built by `CreateTLSClient`: timeout in seconds, the
trust pool (`none` is the nil pool, i.e. the platform default) and the client
key pair. -/
structure Client where
  Timeout : Int
  RootCAs : Option String
  Certificates : List String
deriving DecidableEq

/-- A compiled `*regexp.Regexp`.  The program calls one method on it. -/
structure Regexp where
  MatchString : String → Bool

/-- The parsed command line (the three flags of `main`). -/
structure Flags where
  configFile : String
  filterRegex : String
  dryRun : Bool
deriving DecidableEq

/-! ## Effects -/

/-- Values attached to a structured log record. -/
inductive Attr where
  | str (s : String)
  | int (n : Int)
  | strs (l : List String)
deriving DecidableEq

/-- Log levels used by the program. -/
inductive Level where
  | info
  | error
deriving DecidableEq

/-- What the program does to the outside world, in program order.
`callRevoke` is a ghost event recorded on entry to `RevokeCertificate`; it
has no counterpart in the source and only makes the call sequence visible. -/
inductive Event where
  | slog (level : Level) (msg : String) (attrs : List (String × Attr))
  | print (s : String)
  | httpGet (url : String)
  | scan
  | exec (name : String) (args : List String)
  | callRevoke (cert : Certificate) (dryRun : Bool)
deriving DecidableEq

/-- The state threaded through the program: the events so far, the number of
`Confirm` scanners created so far and the number of external commands run so
far (the two counters index the oracles below). -/
structure World where
  trace : List Event
  scans : Nat
  runs : Nat
deriving DecidableEq

/-- The world at process start. -/
def World.init : World := ⟨[], 0, 0⟩

/-- Append one event to the trace. -/
def World.emit (w : World) (e : Event) : World :=
  { w with trace := w.trace ++ [e] }

/-- The answers of the outside world, one field per library call.
* `readFile`: `os.ReadFile`;
* `yamlUnmarshal`: `yaml.Unmarshal` into a fresh `Config` (the possibly
  partly filled struct and the error);
* `appendCertsFromPEM`: `(*x509.CertPool).AppendCertsFromPEM`;
* `loadX509KeyPair`: `tls.LoadX509KeyPair`;
* `urlEncode`: `url.Values.Encode`;
* `httpGet`: `(*http.Client).Get`;
* `jsonDecode`: `json.NewDecoder(body).Decode`;
* `regexpCompile`: `regexp.Compile`;
* `stdinScan k`: what the scanner created by the `k`-th call of `Confirm`
  yields, `some line` when `Scan()` is true (with `Text()` the line) and
  `none` when it is false (end of input or read error);
* `cmdRun k name args`: the result of `(*exec.Cmd).Run` for the `k`-th
  external command, `none` when it started and exited with status zero. -/
structure Env where
  readFile : String → Except Error String
  yamlUnmarshal : String → Config × Option Error
  appendCertsFromPEM : String → Bool
  loadX509KeyPair : String → String → Except Error String
  urlEncode : List (String × String) → String
  httpGet : Client → String → Except Error Response
  jsonDecode : String → Except Error VMResult
  regexpCompile : String → Except Error Regexp
  stdinScan : Nat → Option String
  cmdRun : Nat → String → List String → Option Error

/-! ## The program -/

/-- `LoadConfig` (lines 39-47): the returned pointer (`none` is nil) and error. -/
def LoadConfig (env : Env) (file : String) : Option Config × Option Error :=
  match env.readFile file with
  | .error err => (none, some err)
  | .ok data =>
    let r := env.yamlUnmarshal data
    (some r.1, r.2)

/-- `CreateTLSClient` (lines 51-80). -/
def CreateTLSClient (env : Env) (config : Config) : Except Error Client :=
  let pool : Except Error (Option String) :=
    if config.CACertPath ≠ "" then
      match env.readFile config.CACertPath with
      | .error err => .error ("failed to load CA certificate: " ++ err)
      | .ok caCert =>
        if !env.appendCertsFromPEM caCert then
          .error "failed to append CA certificate"
        else .ok (some caCert)
    else .ok none
  match pool with
  | .error err => .error err
  | .ok caCertPool =>
    match env.loadX509KeyPair config.ClientCertPath config.ClientKeyPath with
    | .error err => .error ("failed to load client certificate and key: " ++ err)
    | .ok clientCert =>
      .ok { Timeout := config.VMTimeoutSecs, RootCAs := caCertPool, Certificates := [clientCert] }

/-- `QueryVictoriaMetrics` (lines 84-132). -/
def QueryVictoriaMetrics (env : Env) (config : Config) (w : World) :
    Except Error (List Certificate) × World :=
  match CreateTLSClient env config with
  | .error err =>
    (.error err, w.emit (.slog .error "Failed to create TLS client" [("error", .str err)]))
  | .ok client =>
    let queryURL := config.VMURL ++ "?" ++ env.urlEncode [("query", config.VMQuery)]
    let w1 := w.emit (.httpGet queryURL)
    match env.httpGet client queryURL with
    | .error err =>
      (.error err, w1.emit (.slog .error "Failed to query VictoriaMetrics" [("error", .str err)]))
    | .ok resp =>
      if resp.StatusCode ≠ 200 then
        (.error ("VM query failed: " ++ resp.Status),
          w1.emit (.slog .error "VictoriaMetrics query failed" [("status", .str resp.Status)]))
      else
        match env.jsonDecode resp.Body with
        | .error err =>
          (.error err,
            w1.emit (.slog .error "Failed to decode VictoriaMetrics response" [("error", .str err)]))
        | .ok result =>
          let certs := result.Data.Result.foldl
            (fun (certs : List Certificate) res =>
              certs ++ [{ CommonName := res.Metric.index "common_name",
                          OrganizationalUnit := res.Metric.index "organizational_unit",
                          SerialNumber := res.Metric.index "serial" }])
            []
          (.ok certs, w1.emit (.slog .info "Certificates retrieved" [("count", .int certs.length)]))

/-- `FilterCertificates` (lines 136-144). -/
def FilterCertificates (certs : List Certificate) (regex : Regexp) : List Certificate :=
  certs.foldl
    (fun (filtered : List Certificate) cert =>
      if regex.MatchString cert.CommonName then filtered ++ [cert] else filtered)
    []

/-- `RevokeCertificate` (lines 149-175): the returned error (`none` is nil). -/
def RevokeCertificate (env : Env) (config : Config) (cert : Certificate) (dryRun : Bool)
    (w : World) : Option Error × World :=
  let w0 := w.emit (.callRevoke cert dryRun)
  let vaultCommand := "vault"
  let args := ["write", config.VaultPKIPath ++ "/revoke", "serial_number=" ++ cert.SerialNumber]
  if dryRun then
    (none, w0.emit (.slog .info "[DRY RUN] Would revoke certificate"
      [("serial_number", .str cert.SerialNumber), ("common_name", .str cert.CommonName)]))
  else
    let w1 := w0.emit (.slog .info "Revoking certificate using Vault CLI"
      [("serial_number", .str cert.SerialNumber), ("command", .str vaultCommand),
       ("args", .strs args)])
    let w2 : World := { w1.emit (.exec vaultCommand args) with runs := w1.runs + 1 }
    match env.cmdRun w1.runs vaultCommand args with
    | some err =>
      (some err, w2.emit (.slog .error "Vault CLI command failed" [("error", .str err)]))
    | none =>
      (none, w2.emit (.slog .info "Certificate revoked successfully"
        [("serial_number", .str cert.SerialNumber)]))

/-- `Confirm` (lines 177-185). -/
def Confirm (env : Env) (prompt : String) (w : World) : Bool × World :=
  let w1 := w.emit (.print (prompt ++ " [y/N]: "))
  let w2 : World := { w1.emit .scan with scans := w1.scans + 1 }
  match env.stdinScan w1.scans with
  | some answer => (answer == "y" || answer == "Y", w2)
  | none => (false, w2)

/-- The prompt built for one candidate (the `fmt.Sprintf` of line 234). -/
def promptFor (cert : Certificate) : String :=
  "Revoke certificate? Common Name: " ++ cert.CommonName ++
    ", Organizational Unit: " ++ cert.OrganizationalUnit ++
    ", Serial: " ++ cert.SerialNumber

/-- The body of the per-candidate loop of `main` (lines 234-238). -/
def loopBody (env : Env) (config : Config) (dryRun : Bool) (w : World)
    (cert : Certificate) : World :=
  match Confirm env (promptFor cert) w with
  | (true, w1) =>
    match RevokeCertificate env config cert dryRun w1 with
    | (some err, w2) =>
      w2.emit (.slog .error "Failed to revoke certificate"
        [("serial_number", .str cert.SerialNumber), ("error", .str err)])
    | (none, w2) => w2
  | (false, w1) => w1

/-- The per-candidate loop of `main` (lines 233-239): `for _, cert := range certs`. -/
def mainLoop (env : Env) (config : Config) (dryRun : Bool) (certs : List Certificate)
    (w : World) : World :=
  certs.foldl (loopBody env config dryRun) w

/-- The optional selection step of `main` (lines 218-226): `.error` is the
world at `os.Exit(1)`, `.ok` the narrowed candidates and the world after. -/
def mainFilter (env : Env) (flags : Flags) (certs : List Certificate) (w : World) :
    Except World (List Certificate × World) :=
  if flags.filterRegex ≠ "" then
    match env.regexpCompile flags.filterRegex with
    | .error err =>
      .error (w.emit (.slog .error "Invalid regex"
        [("regex", .str flags.filterRegex), ("error", .str err)]))
    | .ok regex =>
      let certs1 := FilterCertificates certs regex
      .ok (certs1, w.emit (.slog .info "Certificates filtered by regex"
        [("count", .int certs1.length), ("regex", .str flags.filterRegex)]))
  else .ok (certs, w)

/-- The usage line printed when the config argument is missing. -/
def usage : String :=
  "Usage: go run main.go --config <config.yaml> [--filter-regex <regex>] [--dry-run]"

/-- `main` (lines 187-240), after a successful `flag.Parse`: the process exit
code and the final world.  Exit code 2 is the exit status of the Go runtime for a
nil-pointer panic (a nil `config` with a nil error). -/
def main (env : Env) (flags : Flags) : Nat × World :=
  let w := World.init
  if flags.configFile = "" then
    (1, (w.emit (.slog .error "Missing config file argument" [])).emit (.print (usage ++ "\n")))
  else
    match LoadConfig env flags.configFile with
    | (_, some err) =>
      (1, w.emit (.slog .error "Failed to load config"
        [("file", .str flags.configFile), ("error", .str err)]))
    | (none, none) => (2, w)
    | (some config, none) =>
      match QueryVictoriaMetrics env config w with
      | (.error err, w1) =>
        (1, w1.emit (.slog .error "Failed to query VictoriaMetrics" [("error", .str err)]))
      | (.ok certs, w1) =>
        if certs.length = 0 then
          (0, w1.emit (.slog .info "No certificates retrieved" []))
        else
          match mainFilter env flags certs w1 with
          | .error w2 => (1, w2)
          | .ok (certs1, w2) =>
            if certs1.length = 0 then
              (0, w2.emit (.slog .info "No certificates match the provided filter" []))
            else
              (0, mainLoop env config flags.dryRun certs1 w2)

/-! ## Observations on a trace -/

/-- The external commands run, in order. -/
def execs (t : List Event) : List (String × List String) :=
  t.filterMap fun e => match e with
    | .exec name args => some (name, args)
    | _ => none

/-- The texts written to standard output with `fmt.Print`/`fmt.Println`. -/
def prints (t : List Event) : List String :=
  t.filterMap fun e => match e with
    | .print s => some s
    | _ => none

/-- The HTTP GET requests issued, in order. -/
def httpGets (t : List Event) : List String :=
  t.filterMap fun e => match e with
    | .httpGet url => some url
    | _ => none

/-- The calls of `RevokeCertificate`, in order, with their arguments. -/
def revokeCalls (t : List Event) : List (Certificate × Bool) :=
  t.filterMap fun e => match e with
    | .callRevoke cert dryRun => some (cert, dryRun)
    | _ => none

/-! ## The standard library `regexp` package on a fragment of its syntax

`regexp` is not code of the repository.  The program hands the operator's
pattern to `regexp.Compile` unchanged and calls `MatchString` on the result.
What follows models those two library functions, after the package
documentation, for the patterns built from literal characters, `.`, `^`, `$`
and escaped metacharacters; repetition, alternation, groups and classes are
outside the fragment. -/

/-- The regular-expression metacharacters, the ones `regexp.QuoteMeta` escapes. -/
def metaChars : List Char :=
  [Char.ofNat 92, '.', '+', '*', '?', '(', ')', '|', '[', ']', '{', '}', '^', '$']

/-- A pattern consists of literal characters only: none of its characters is
a metacharacter. -/
def isLiteralPattern (p : String) : Bool :=
  p.data.all fun c => !metaChars.contains c

/-- One element of a parsed pattern of the fragment: a literal character,
`.` (any character but newline), `^` (beginning of text) or `$` (end of
text). -/
inductive Item where
  | lit (c : Char)
  | anyNotNL
  | beginText
  | endText
deriving DecidableEq

/-- Parsing of a pattern of the fragment, left to right; `none` when the
pattern leaves the fragment.  A backslash followed by a metacharacter is that
character taken literally. -/
def parseItems : List Char → Option (List Item)
  | [] => some []
  | c :: rest =>
    if c = Char.ofNat 92 then
      match rest with
      | [] => none
      | d :: rest2 =>
        if metaChars.contains d then (parseItems rest2).map (Item.lit d :: ·) else none
    else if c = '.' then (parseItems rest).map (Item.anyNotNL :: ·)
    else if c = '^' then (parseItems rest).map (Item.beginText :: ·)
    else if c = '$' then (parseItems rest).map (Item.endText :: ·)
    else if metaChars.contains c then none
    else (parseItems rest).map (Item.lit c :: ·)

/-- The parsed pattern matches a stretch of the text that begins at the
current position; `atStart` says whether that position is the beginning of
the text, and the list is the text from the position on. -/
def matchHere : List Item → Bool → List Char → Bool
  | [], _, _ => true
  | .lit c :: items, _, d :: text => decide (d = c) && matchHere items false text
  | .lit _ :: _, _, [] => false
  | .anyNotNL :: items, _, d :: text => decide (d ≠ Char.ofNat 10) && matchHere items false text
  | .anyNotNL :: _, _, [] => false
  | .beginText :: items, atStart, text => atStart && matchHere items atStart text
  | .endText :: items, atStart, text => text.isEmpty && matchHere items atStart text

/-- The text contains a match of the parsed pattern: the pattern matches at
the current position or at a later one. -/
def searchFrom (items : List Item) : Bool → List Char → Bool
  | atStart, [] => matchHere items atStart []
  | atStart, c :: text => matchHere items atStart (c :: text) || searchFrom items false text

/-- The compiled pattern: `MatchString s` reports whether `s` contains any
match of the pattern. -/
def Regexp.ofItems (items : List Item) : Regexp :=
  ⟨fun s => searchFrom items true s.data⟩

/-- `regexp.Compile` on the fragment; `none` when the pattern leaves it. -/
def compileFragment (p : String) : Option Regexp :=
  (parseItems p.data).map Regexp.ofItems

/-! ## Specification-side vocabulary -/

/-- The operator approves at the `k`-th prompt: the line read there is
exactly `y` or `Y`. -/
def approves (env : Env) (k : Nat) : Bool :=
  decide (env.stdinScan k = some "y" ∨ env.stdinScan k = some "Y")

/-- The candidates of `certs` the operator approves, in list order, when the
first of them is shown at prompt number `start`. -/
def approved (env : Env) (start : Nat) (certs : List Certificate) : List Certificate :=
  ((certs.enumFrom start).filter fun ic => approves env ic.1).map Prod.snd

/-- The external command a live revocation of `cert` runs. -/
def revokeCommand (config : Config) (cert : Certificate) : String × List String :=
  ("vault", ["write", config.VaultPKIPath ++ "/revoke", "serial_number=" ++ cert.SerialNumber])

/-- The descriptor built from one result row: the three labels, each the
empty string when the row does not carry it. -/
def rowCertificate (r : Row) : Certificate :=
  { CommonName := (r.Metric.lookup "common_name").getD ""
    OrganizationalUnit := (r.Metric.lookup "organizational_unit").getD ""
    SerialNumber := (r.Metric.lookup "serial").getD "" }

/-! ## A concrete outside world, used for the worked examples -/

/-- Substring search on strings, as a compiled pattern: the behaviour of
`MatchString` for a pattern made of literal characters only. -/
def literalRegexp (p : String) : Regexp :=
  ⟨fun s => decide (p.data <:+: s.data)⟩

/-- A sample configuration: no CA bundle, a client key pair. -/
def demoConfig : Config :=
  { VMURL := "https://vm.example/api/v1/query", VMQuery := "x509_cert_expiry",
    VaultPKIPath := "pki", VMTimeoutSecs := 10, CACertPath := "",
    ClientCertPath := "client.crt", ClientKeyPath := "client.key" }

/-- A sample outside world: every file is readable, the configuration document
decodes to `demoConfig`, the backend answers 200 with the given rows, the
pattern `(` does not compile and every other pattern is taken as a literal,
the operator answers with `answers` and the external command ends as
`outcome` says. -/
def demoEnv (rows : List Row) (answers : Nat → Option String)
    (outcome : Nat → Option Error) : Env :=
  { readFile := fun _ => .ok "data"
    yamlUnmarshal := fun _ => (demoConfig, none)
    appendCertsFromPEM := fun _ => true
    loadX509KeyPair := fun _ _ => .ok "keypair"
    urlEncode := fun kvs => String.intercalate "&" (kvs.map fun kv => kv.1 ++ "=" ++ kv.2)
    httpGet := fun _ _ => .ok { StatusCode := 200, Status := "200 OK", Body := "body" }
    jsonDecode := fun _ => .ok ⟨⟨rows⟩⟩
    regexpCompile := fun p =>
      if p = "(" then .error "error parsing regexp: missing closing )" else .ok (literalRegexp p)
    stdinScan := answers
    cmdRun := fun k _ _ => outcome k }

/-- Two discovered rows, `svc-a` with serial 111 and `svc-b` with serial 222. -/
def demoRows : List Row :=
  [⟨[("common_name", "svc-a"), ("organizational_unit", "ops"), ("serial", "111")]⟩,
   ⟨[("common_name", "svc-b"), ("organizational_unit", "ops"), ("serial", "222")]⟩]

/-- One discovered row that carries no `serial` label. -/
def rowsWithoutSerial : List Row :=
  [⟨[("common_name", "svc-a"), ("organizational_unit", "ops")]⟩]

/-! ## Slices grown with append -/

theorem foldl_append_map {α β : Type} (f : α → β) (l : List α) (init : List β) :
    l.foldl (fun acc x => acc ++ [f x]) init = init ++ l.map f := by
  induction l generalizing init with
  | nil => simp
  | cons x xs ih => simp [ih]

theorem foldl_append_filter {α : Type} (p : α → Bool) (l : List α) (init : List α) :
    l.foldl (fun acc x => if p x then acc ++ [x] else acc) init = init ++ l.filter p := by
  induction l generalizing init with
  | nil => simp
  | cons x xs ih =>
    by_cases hx : p x = true
    · simp [ih, hx]
    · simp [ih, hx]

theorem FilterCertificates_eq_filter (certs : List Certificate) (regex : Regexp) :
    FilterCertificates certs regex
      = certs.filter (fun c => regex.MatchString c.CommonName) := by
  unfold FilterCertificates
  rw [foldl_append_filter (fun c : Certificate => regex.MatchString c.CommonName)]
  simp

/-- C1: `FilterCertificates` returns the candidates filtered by "the pattern
matches the common name": a subsequence in the original order, duplicates
kept, every returned descriptor matches, every non-matching one is absent. -/
theorem FilterCertificates_spec (certs : List Certificate) (regex : Regexp) :
    FilterCertificates certs regex
        = certs.filter (fun c => regex.MatchString c.CommonName)
      ∧ List.Sublist (FilterCertificates certs regex) certs
      ∧ (∀ c ∈ FilterCertificates certs regex, regex.MatchString c.CommonName = true)
      ∧ (∀ c ∈ certs, regex.MatchString c.CommonName = false →
          c ∉ FilterCertificates certs regex)
      ∧ (∀ c, regex.MatchString c.CommonName = true →
          (FilterCertificates certs regex).count c = certs.count c) := by
  rw [FilterCertificates_eq_filter]
  refine ⟨rfl, List.filter_sublist _, ?_, ?_, ?_⟩
  · intro c hc
    exact (List.mem_filter.mp hc).2
  · intro c _ hno hc
    have := (List.mem_filter.mp hc).2
    simp [hno] at this
  · intro c hc
    rw [List.count_filter]
    exact hc

/-! ## Discovery -/

/-- C2: when the response decodes, `QueryVictoriaMetrics` returns one
descriptor per result row, in response order, the i-th built from the labels
`common_name`, `organizational_unit` and `serial` of the i-th row, each the empty
string when the label is missing; no row is dropped, merged or rejected. -/
theorem QueryVictoriaMetrics_one_descriptor_per_row (env : Env) (config : Config) (w : World)
    (client : Client) (resp : Response) (result : VMResult)
    (hclient : CreateTLSClient env config = .ok client)
    (hget : env.httpGet client
      (config.VMURL ++ "?" ++ env.urlEncode [("query", config.VMQuery)]) = .ok resp)
    (hstatus : resp.StatusCode = 200)
    (hdecode : env.jsonDecode resp.Body = .ok result) :
    ∃ certs : List Certificate,
      (QueryVictoriaMetrics env config w).1 = .ok certs
      ∧ certs.length = result.Data.Result.length
      ∧ certs = result.Data.Result.map rowCertificate
      ∧ (∀ i : Nat, certs[i]? = (result.Data.Result[i]?).map rowCertificate)
      ∧ (∀ (m : GoMap) (k : String), m.lookup k = none → m.index k = "")
      ∧ (∀ (m : GoMap) (k v : String), m.lookup k = some v → m.index k = v) := by
  refine ⟨result.Data.Result.map rowCertificate, ?_, by simp, rfl, ?_, ?_, ?_⟩
  · unfold QueryVictoriaMetrics
    simp only [hclient, hget, hstatus, hdecode]
    simp only [ne_eq, not_true_eq_false, if_false]
    rw [foldl_append_map (fun res : Row =>
      ({ CommonName := res.Metric.index "common_name",
         OrganizationalUnit := res.Metric.index "organizational_unit",
         SerialNumber := res.Metric.index "serial" } : Certificate))]
    rfl
  · intro i
    simp
  · intro m k h
    simp [GoMap.index, h]
  · intro m k v h
    simp [GoMap.index, h]

/-- Worked instance of C2: one row without a `serial` label gives one descriptor
with an empty serial number. -/
theorem QueryVictoriaMetrics_one_descriptor_per_row_witness :
    ∃ certs : List Certificate,
      (QueryVictoriaMetrics (demoEnv rowsWithoutSerial (fun _ => none) (fun _ => none))
          demoConfig World.init).1 = .ok certs
      ∧ certs.length = 1
      ∧ certs = [⟨"svc-a", "ops", ""⟩] := by
  obtain ⟨certs, h1, h2, h3, -⟩ :=
    QueryVictoriaMetrics_one_descriptor_per_row
      (demoEnv rowsWithoutSerial (fun _ => none) (fun _ => none)) demoConfig World.init
      ⟨10, none, ["keypair"]⟩ ⟨200, "200 OK", "body"⟩ ⟨⟨rowsWithoutSerial⟩⟩ rfl rfl rfl rfl
  exact ⟨certs, h1, h2, by rw [h3]; decide⟩

/-! ## The interactive gate -/

@[simp]
theorem emit_trace (w : World) (e : Event) : (w.emit e).trace = w.trace ++ [e] := rfl

@[simp]
theorem emit_scans (w : World) (e : Event) : (w.emit e).scans = w.scans := rfl

@[simp]
theorem emit_runs (w : World) (e : Event) : (w.emit e).runs = w.runs := rfl

theorem Confirm_fst (env : Env) (prompt : String) (w : World) :
    (Confirm env prompt w).1 = approves env w.scans := by
  unfold Confirm approves
  cases h : env.stdinScan w.scans with
  | none => simp [h]
  | some answer => simp [h, Bool.beq_eq_decide_eq]

theorem Confirm_snd (env : Env) (prompt : String) (w : World) :
    (Confirm env prompt w).2
      = ⟨w.trace ++ [.print (prompt ++ " [y/N]: "), .scan], w.scans + 1, w.runs⟩ := by
  unfold Confirm
  cases h : env.stdinScan w.scans with
  | none => simp [h, World.emit]
  | some answer => simp [h, World.emit]

/-- C4: `Confirm` is a strict allow-list: it returns true exactly when a first
line is read and that line is `y` or `Y`; every other line, and end of input
or a read error, give false. -/
theorem Confirm_allow_list (env : Env) (prompt : String) (w : World) :
    ((Confirm env prompt w).1 = true ↔
        ∃ line, env.stdinScan w.scans = some line ∧ (line = "y" ∨ line = "Y"))
      ∧ (env.stdinScan w.scans = none → (Confirm env prompt w).1 = false)
      ∧ (∀ line, env.stdinScan w.scans = some line → line ≠ "y" → line ≠ "Y" →
          (Confirm env prompt w).1 = false)
      ∧ (∀ line ∈ ["", "no", "yes", " y", "n", "N", "yY", "y "],
          env.stdinScan w.scans = some line → (Confirm env prompt w).1 = false) := by
  have key : ∀ line, env.stdinScan w.scans = some line → line ≠ "y" → line ≠ "Y" →
      (Confirm env prompt w).1 = false := by
    intro line h h1 h2
    rw [Confirm_fst]
    simp [approves, h, h1, h2]
  refine ⟨?_, ?_, key, ?_⟩
  · rw [Confirm_fst]
    simp only [approves, decide_eq_true_eq]
    constructor
    · rintro (h | h)
      · exact ⟨"y", h, Or.inl rfl⟩
      · exact ⟨"Y", h, Or.inr rfl⟩
    · rintro ⟨line, h, rfl | rfl⟩
      · exact Or.inl h
      · exact Or.inr h
  · intro h
    rw [Confirm_fst]
    simp [approves, h]
  · intro line hl h
    have hne : line ≠ "y" ∧ line ≠ "Y" := by
      simp only [List.mem_cons, List.mem_singleton, List.not_mem_nil, or_false] at hl
      rcases hl with rfl | rfl | rfl | rfl | rfl | rfl | rfl | rfl <;> decide
    exact key line h hne.1 hne.2

/-! ## Observations distribute over the trace -/

@[simp]
theorem execs_append (s t : List Event) : execs (s ++ t) = execs s ++ execs t := by
  simp [execs]

@[simp]
theorem prints_append (s t : List Event) : prints (s ++ t) = prints s ++ prints t := by
  simp [prints]

@[simp]
theorem httpGets_append (s t : List Event) :
    httpGets (s ++ t) = httpGets s ++ httpGets t := by
  simp [httpGets]

@[simp]
theorem revokeCalls_append (s t : List Event) :
    revokeCalls (s ++ t) = revokeCalls s ++ revokeCalls t := by
  simp [revokeCalls]

/-! ## The revocation executor -/

theorem RevokeCertificate_dry (env : Env) (config : Config) (cert : Certificate) (w : World) :
    RevokeCertificate env config cert true w
      = (none, ⟨w.trace ++ [.callRevoke cert true,
          .slog .info "[DRY RUN] Would revoke certificate"
            [("serial_number", .str cert.SerialNumber), ("common_name", .str cert.CommonName)]],
          w.scans, w.runs⟩) := by
  simp [RevokeCertificate, World.emit]

theorem RevokeCertificate_live_fst (env : Env) (config : Config) (cert : Certificate)
    (w : World) :
    (RevokeCertificate env config cert false w).1
      = env.cmdRun w.runs (revokeCommand config cert).1 (revokeCommand config cert).2 := by
  unfold RevokeCertificate revokeCommand
  cases h : env.cmdRun w.runs "vault"
      ["write", config.VaultPKIPath ++ "/revoke", "serial_number=" ++ cert.SerialNumber] with
  | none => simp [h]
  | some err => simp [h]

theorem RevokeCertificate_live_snd (env : Env) (config : Config) (cert : Certificate)
    (w : World) :
    ∃ logged : Event, (∃ l m a, logged = .slog l m a) ∧
      (RevokeCertificate env config cert false w).2
        = ⟨w.trace ++ [.callRevoke cert false,
            .slog .info "Revoking certificate using Vault CLI"
              [("serial_number", .str cert.SerialNumber), ("command", .str "vault"),
               ("args", .strs (revokeCommand config cert).2)],
            .exec (revokeCommand config cert).1 (revokeCommand config cert).2,
            logged],
          w.scans, w.runs + 1⟩ := by
  unfold RevokeCertificate revokeCommand
  cases h : env.cmdRun w.runs "vault"
      ["write", config.VaultPKIPath ++ "/revoke", "serial_number=" ++ cert.SerialNumber] with
  | none =>
    exact ⟨.slog .info "Certificate revoked successfully"
      [("serial_number", .str cert.SerialNumber)], ⟨_, _, _, rfl⟩, by simp [h, World.emit]⟩
  | some err =>
    exact ⟨.slog .error "Vault CLI command failed" [("error", .str err)],
      ⟨_, _, _, rfl⟩, by simp [h, World.emit]⟩

theorem RevokeCertificate_scans (env : Env) (config : Config) (cert : Certificate)
    (dryRun : Bool) (w : World) :
    (RevokeCertificate env config cert dryRun w).2.scans = w.scans := by
  cases dryRun with
  | true => rw [RevokeCertificate_dry]
  | false =>
    obtain ⟨e, -, h⟩ := RevokeCertificate_live_snd env config cert w
    rw [h]

theorem RevokeCertificate_execs (env : Env) (config : Config) (cert : Certificate)
    (dryRun : Bool) (w : World) :
    execs (RevokeCertificate env config cert dryRun w).2.trace
      = execs w.trace ++ (if dryRun then [] else [revokeCommand config cert]) := by
  cases dryRun with
  | true => rw [RevokeCertificate_dry]; simp [execs]
  | false =>
    obtain ⟨e, ⟨l, m, a, rfl⟩, h⟩ := RevokeCertificate_live_snd env config cert w
    rw [h]; simp [execs]

theorem RevokeCertificate_prints (env : Env) (config : Config) (cert : Certificate)
    (dryRun : Bool) (w : World) :
    prints (RevokeCertificate env config cert dryRun w).2.trace = prints w.trace := by
  cases dryRun with
  | true => rw [RevokeCertificate_dry]; simp [prints]
  | false =>
    obtain ⟨e, ⟨l, m, a, rfl⟩, h⟩ := RevokeCertificate_live_snd env config cert w
    rw [h]; simp [prints]

theorem RevokeCertificate_httpGets (env : Env) (config : Config) (cert : Certificate)
    (dryRun : Bool) (w : World) :
    httpGets (RevokeCertificate env config cert dryRun w).2.trace = httpGets w.trace := by
  cases dryRun with
  | true => rw [RevokeCertificate_dry]; simp [httpGets]
  | false =>
    obtain ⟨e, ⟨l, m, a, rfl⟩, h⟩ := RevokeCertificate_live_snd env config cert w
    rw [h]; simp [httpGets]

theorem RevokeCertificate_revokeCalls (env : Env) (config : Config) (cert : Certificate)
    (dryRun : Bool) (w : World) :
    revokeCalls (RevokeCertificate env config cert dryRun w).2.trace
      = revokeCalls w.trace ++ [(cert, dryRun)] := by
  cases dryRun with
  | true => rw [RevokeCertificate_dry]; simp [revokeCalls]
  | false =>
    obtain ⟨e, ⟨l, m, a, rfl⟩, h⟩ := RevokeCertificate_live_snd env config cert w
    rw [h]; simp [revokeCalls]

/-- C8: a live `RevokeCertificate` runs the external command `vault` exactly
once, with the arguments `write`, `<VaultPKIPath>/revoke` and
`serial_number=<SerialNumber>`, and returns an error exactly when that command
fails. -/
theorem RevokeCertificate_live_runs_vault_once (env : Env) (config : Config) (cert : Certificate) (w : World) :
    execs (RevokeCertificate env config cert false w).2.trace
        = execs w.trace ++
          [("vault", ["write", config.VaultPKIPath ++ "/revoke",
                      "serial_number=" ++ cert.SerialNumber])]
      ∧ (RevokeCertificate env config cert false w).2.runs = w.runs + 1
      ∧ (RevokeCertificate env config cert false w).1
          = env.cmdRun w.runs "vault"
              ["write", config.VaultPKIPath ++ "/revoke", "serial_number=" ++ cert.SerialNumber]
      ∧ ((RevokeCertificate env config cert false w).1 = none ↔
          env.cmdRun w.runs "vault"
            ["write", config.VaultPKIPath ++ "/revoke",
             "serial_number=" ++ cert.SerialNumber] = none) := by
  have h1 := RevokeCertificate_live_fst env config cert w
  obtain ⟨e, -, h2⟩ := RevokeCertificate_live_snd env config cert w
  refine ⟨?_, ?_, h1, by rw [h1]; rfl⟩
  · rw [RevokeCertificate_execs]; rfl
  · rw [h2]

/-! ## The per-candidate loop -/

@[simp]
theorem execs_slog (l : Level) (m : String) (a : List (String × Attr)) :
    execs [.slog l m a] = [] := rfl

@[simp]
theorem prints_slog (l : Level) (m : String) (a : List (String × Attr)) :
    prints [.slog l m a] = [] := rfl

@[simp]
theorem httpGets_slog (l : Level) (m : String) (a : List (String × Attr)) :
    httpGets [.slog l m a] = [] := rfl

@[simp]
theorem revokeCalls_slog (l : Level) (m : String) (a : List (String × Attr)) :
    revokeCalls [.slog l m a] = [] := rfl

theorem Confirm_eq (env : Env) (prompt : String) (w : World) :
    Confirm env prompt w
      = (approves env w.scans,
          ⟨w.trace ++ [.print (prompt ++ " [y/N]: "), .scan], w.scans + 1, w.runs⟩) := by
  rw [← Confirm_fst env prompt w, ← Confirm_snd env prompt w]

theorem approved_nil (env : Env) (k : Nat) : approved env k [] = [] := rfl

theorem approved_cons (env : Env) (k : Nat) (c : Certificate) (cs : List Certificate) :
    approved env k (c :: cs)
      = (if approves env k then [c] else []) ++ approved env (k + 1) cs := by
  unfold approved
  by_cases h : approves env k = true
  · simp [List.enumFrom_cons, List.filter_cons, h]
  · simp [List.enumFrom_cons, List.filter_cons, h]

theorem approved_sublist (env : Env) (k : Nat) (certs : List Certificate) :
    List.Sublist (approved env k certs) certs := by
  induction certs generalizing k with
  | nil => simp [approved_nil]
  | cons c cs ih =>
    rw [approved_cons]
    by_cases h : approves env k = true
    · simpa [h] using ih (k + 1)
    · simpa [h] using (ih (k + 1)).trans (List.sublist_cons_self c cs)

theorem loopBody_scans (env : Env) (config : Config) (dryRun : Bool) (w : World)
    (cert : Certificate) :
    (loopBody env config dryRun w cert).scans = w.scans + 1 := by
  unfold loopBody
  rw [Confirm_eq]
  cases approves env w.scans with
  | false => rfl
  | true =>
    simp only
    have hs := RevokeCertificate_scans env config cert dryRun
      ⟨w.trace ++ [.print (promptFor cert ++ " [y/N]: "), .scan], w.scans + 1, w.runs⟩
    cases h : RevokeCertificate env config cert dryRun
      ⟨w.trace ++ [.print (promptFor cert ++ " [y/N]: "), .scan], w.scans + 1, w.runs⟩ with
    | mk r w2 =>
      rw [h] at hs
      cases r with
      | none => simpa using hs
      | some err => simpa using hs

theorem loopBody_execs (env : Env) (config : Config) (dryRun : Bool) (w : World)
    (cert : Certificate) :
    execs (loopBody env config dryRun w cert).trace
      = execs w.trace ++
        (if approves env w.scans = true ∧ dryRun = false then [revokeCommand config cert]
         else []) := by
  unfold loopBody
  rw [Confirm_eq]
  cases approves env w.scans with
  | false => simp [execs]
  | true =>
    simp only
    have hs := RevokeCertificate_execs env config cert dryRun
      ⟨w.trace ++ [.print (promptFor cert ++ " [y/N]: "), .scan], w.scans + 1, w.runs⟩
    cases h : RevokeCertificate env config cert dryRun
      ⟨w.trace ++ [.print (promptFor cert ++ " [y/N]: "), .scan], w.scans + 1, w.runs⟩ with
    | mk r w2 =>
      rw [h] at hs
      have hs2 : execs w2.trace = execs w.trace ++ (if dryRun = true then [] else
          [revokeCommand config cert]) := by
        simpa [execs] using hs
      cases r with
      | none => cases dryRun <;> simp [hs2]
      | some err => cases dryRun <;> simp [hs2]

theorem loopBody_prints (env : Env) (config : Config) (dryRun : Bool) (w : World)
    (cert : Certificate) :
    prints (loopBody env config dryRun w cert).trace
      = prints w.trace ++ [promptFor cert ++ " [y/N]: "] := by
  unfold loopBody
  rw [Confirm_eq]
  cases approves env w.scans with
  | false => simp [prints]
  | true =>
    simp only
    have hs := RevokeCertificate_prints env config cert dryRun
      ⟨w.trace ++ [.print (promptFor cert ++ " [y/N]: "), .scan], w.scans + 1, w.runs⟩
    cases h : RevokeCertificate env config cert dryRun
      ⟨w.trace ++ [.print (promptFor cert ++ " [y/N]: "), .scan], w.scans + 1, w.runs⟩ with
    | mk r w2 =>
      rw [h] at hs
      have hs2 : prints w2.trace = prints w.trace ++ [promptFor cert ++ " [y/N]: "] := by
        simpa [prints] using hs
      cases r with
      | none => simp [hs2]
      | some err => simp [hs2]

theorem loopBody_httpGets (env : Env) (config : Config) (dryRun : Bool) (w : World)
    (cert : Certificate) :
    httpGets (loopBody env config dryRun w cert).trace = httpGets w.trace := by
  unfold loopBody
  rw [Confirm_eq]
  cases approves env w.scans with
  | false => simp [httpGets]
  | true =>
    simp only
    have hs := RevokeCertificate_httpGets env config cert dryRun
      ⟨w.trace ++ [.print (promptFor cert ++ " [y/N]: "), .scan], w.scans + 1, w.runs⟩
    cases h : RevokeCertificate env config cert dryRun
      ⟨w.trace ++ [.print (promptFor cert ++ " [y/N]: "), .scan], w.scans + 1, w.runs⟩ with
    | mk r w2 =>
      rw [h] at hs
      have hs2 : httpGets w2.trace = httpGets w.trace := by
        simpa [httpGets] using hs
      cases r with
      | none => simp [hs2]
      | some err => simp [hs2]

theorem loopBody_revokeCalls (env : Env) (config : Config) (dryRun : Bool) (w : World)
    (cert : Certificate) :
    revokeCalls (loopBody env config dryRun w cert).trace
      = revokeCalls w.trace ++ (if approves env w.scans then [(cert, dryRun)] else []) := by
  unfold loopBody
  rw [Confirm_eq]
  cases approves env w.scans with
  | false => simp [revokeCalls]
  | true =>
    simp only
    have hs := RevokeCertificate_revokeCalls env config cert dryRun
      ⟨w.trace ++ [.print (promptFor cert ++ " [y/N]: "), .scan], w.scans + 1, w.runs⟩
    cases h : RevokeCertificate env config cert dryRun
      ⟨w.trace ++ [.print (promptFor cert ++ " [y/N]: "), .scan], w.scans + 1, w.runs⟩ with
    | mk r w2 =>
      rw [h] at hs
      have hs2 : revokeCalls w2.trace = revokeCalls w.trace ++ [(cert, dryRun)] := by
        simpa [revokeCalls] using hs
      cases r with
      | none => simp [hs2]
      | some err => simp [hs2]

theorem mainLoop_cons (env : Env) (config : Config) (dryRun : Bool) (c : Certificate)
    (cs : List Certificate) (w : World) :
    mainLoop env config dryRun (c :: cs) w
      = mainLoop env config dryRun cs (loopBody env config dryRun w c) := rfl

theorem mainLoop_scans (env : Env) (config : Config) (dryRun : Bool)
    (certs : List Certificate) (w : World) :
    (mainLoop env config dryRun certs w).scans = w.scans + certs.length := by
  induction certs generalizing w with
  | nil => rfl
  | cons c cs ih =>
    rw [mainLoop_cons, ih, loopBody_scans, List.length_cons]
    omega

theorem mainLoop_prints (env : Env) (config : Config) (dryRun : Bool)
    (certs : List Certificate) (w : World) :
    prints (mainLoop env config dryRun certs w).trace
      = prints w.trace ++ certs.map (fun c => promptFor c ++ " [y/N]: ") := by
  induction certs generalizing w with
  | nil => simp [mainLoop]
  | cons c cs ih => rw [mainLoop_cons, ih, loopBody_prints]; simp

theorem mainLoop_httpGets (env : Env) (config : Config) (dryRun : Bool)
    (certs : List Certificate) (w : World) :
    httpGets (mainLoop env config dryRun certs w).trace = httpGets w.trace := by
  induction certs generalizing w with
  | nil => simp [mainLoop]
  | cons c cs ih => rw [mainLoop_cons, ih, loopBody_httpGets]

theorem mainLoop_revokeCalls (env : Env) (config : Config) (dryRun : Bool)
    (certs : List Certificate) (w : World) :
    revokeCalls (mainLoop env config dryRun certs w).trace
      = revokeCalls w.trace ++ (approved env w.scans certs).map (fun c => (c, dryRun)) := by
  induction certs generalizing w with
  | nil => simp [mainLoop, approved_nil]
  | cons c cs ih =>
    rw [mainLoop_cons, ih, loopBody_revokeCalls, loopBody_scans, approved_cons]
    cases approves env w.scans <;> simp

theorem mainLoop_execs (env : Env) (config : Config) (dryRun : Bool)
    (certs : List Certificate) (w : World) :
    execs (mainLoop env config dryRun certs w).trace
      = execs w.trace ++
        (if dryRun then [] else (approved env w.scans certs).map (revokeCommand config)) := by
  induction certs generalizing w with
  | nil => simp [mainLoop, approved_nil]
  | cons c cs ih =>
    rw [mainLoop_cons, ih, loopBody_execs, loopBody_scans, approved_cons]
    cases approves env w.scans <;> cases dryRun <;> simp

/-- C5: the loop of `main` prompts every candidate once, in list order, and
calls `RevokeCertificate` on exactly the approved candidates, in list order,
one call per occurrence, whatever the earlier revocations returned. -/
theorem mainLoop_prompts_all_revokes_approved (env : Env) (config : Config) (dryRun : Bool)
    (certs : List Certificate) (w : World) :
    prints (mainLoop env config dryRun certs w).trace
        = prints w.trace ++ certs.map (fun c => promptFor c ++ " [y/N]: ")
      ∧ (mainLoop env config dryRun certs w).scans = w.scans + certs.length
      ∧ revokeCalls (mainLoop env config dryRun certs w).trace
          = revokeCalls w.trace ++
            (((certs.enumFrom w.scans).filter fun ic => approves env ic.1).map
              fun ic => (ic.2, dryRun))
      ∧ List.Sublist
          (((certs.enumFrom w.scans).filter fun ic => approves env ic.1).map Prod.snd) certs
      ∧ (∀ (prompt : String) (v : World), (Confirm env prompt v).1 = approves env v.scans) := by
  refine ⟨mainLoop_prints env config dryRun certs w, mainLoop_scans env config dryRun certs w,
    ?_, approved_sublist env w.scans certs, Confirm_fst env⟩
  rw [mainLoop_revokeCalls]
  simp [approved]

/-! ## Discovery and selection leave the terminal and the authority alone -/

theorem QueryVictoriaMetrics_world (env : Env) (config : Config) (w : World) :
    (QueryVictoriaMetrics env config w).2.scans = w.scans
      ∧ (QueryVictoriaMetrics env config w).2.runs = w.runs
      ∧ execs (QueryVictoriaMetrics env config w).2.trace = execs w.trace
      ∧ prints (QueryVictoriaMetrics env config w).2.trace = prints w.trace
      ∧ revokeCalls (QueryVictoriaMetrics env config w).2.trace = revokeCalls w.trace
      ∧ httpGets (QueryVictoriaMetrics env config w).2.trace
          = httpGets w.trace ++
            (match CreateTLSClient env config with
              | .ok _ => [config.VMURL ++ "?" ++ env.urlEncode [("query", config.VMQuery)]]
              | .error _ => []) := by
  unfold QueryVictoriaMetrics
  cases hc : CreateTLSClient env config with
  | error err => simp
  | ok client =>
    simp only
    cases hg : env.httpGet client
        (config.VMURL ++ "?" ++ env.urlEncode [("query", config.VMQuery)]) with
    | error err => simp [execs, prints, revokeCalls, httpGets]
    | ok resp =>
      simp only
      by_cases hs : resp.StatusCode = 200
      · simp only [hs, ne_eq, not_true_eq_false, if_false]
        cases hd : env.jsonDecode resp.Body with
        | error err => simp [execs, prints, revokeCalls, httpGets]
        | ok result => simp [execs, prints, revokeCalls, httpGets]
      · simp [hs, execs, prints, revokeCalls, httpGets]

theorem mainFilter_ok_world (env : Env) (flags : Flags) (certs sel : List Certificate)
    (w w2 : World) (h : mainFilter env flags certs w = .ok (sel, w2)) :
    w2.scans = w.scans ∧ w2.runs = w.runs ∧ execs w2.trace = execs w.trace
      ∧ prints w2.trace = prints w.trace ∧ revokeCalls w2.trace = revokeCalls w.trace
      ∧ httpGets w2.trace = httpGets w.trace := by
  unfold mainFilter at h
  by_cases hf : flags.filterRegex = ""
  · simp [hf] at h
    obtain ⟨-, rfl⟩ := h
    simp
  · simp only [ne_eq, hf, not_false_eq_true, if_true] at h
    cases hc : env.regexpCompile flags.filterRegex with
    | error err => simp [hc] at h
    | ok regex =>
      simp [hc] at h
      obtain ⟨-, rfl⟩ := h
      simp

theorem mainFilter_error_world (env : Env) (flags : Flags) (certs : List Certificate)
    (w w2 : World) (h : mainFilter env flags certs w = .error w2) :
    w2.scans = w.scans ∧ w2.runs = w.runs ∧ execs w2.trace = execs w.trace
      ∧ prints w2.trace = prints w.trace ∧ revokeCalls w2.trace = revokeCalls w.trace
      ∧ httpGets w2.trace = httpGets w.trace := by
  unfold mainFilter at h
  by_cases hf : flags.filterRegex = ""
  · simp [hf] at h
  · simp only [ne_eq, hf, not_false_eq_true, if_true] at h
    cases hc : env.regexpCompile flags.filterRegex with
    | error err =>
      simp [hc] at h
      subst h
      simp
    | ok regex => simp [hc] at h

theorem mainFilter_error_iff (env : Env) (flags : Flags) (certs : List Certificate)
    (w : World) :
    (∃ w2, mainFilter env flags certs w = .error w2)
      ↔ flags.filterRegex ≠ "" ∧ ∃ err, env.regexpCompile flags.filterRegex = .error err := by
  unfold mainFilter
  by_cases hf : flags.filterRegex = ""
  · simp [hf]
  · simp only [ne_eq, hf, not_false_eq_true, if_true, true_and]
    cases hc : env.regexpCompile flags.filterRegex with
    | error err => simp
    | ok regex => simp

theorem LoadConfig_not_nil (env : Env) (file : String) :
    LoadConfig env file ≠ (none, none) := by
  unfold LoadConfig
  cases env.readFile file with
  | error err => simp
  | ok data => simp

/-- The shape of a run that reaches the per-candidate loop. -/
theorem main_reaches_loop (env : Env) (flags : Flags) (config : Config)
    (certs sel : List Certificate) (w1 w2 : World)
    (hflag : flags.configFile ≠ "")
    (hload : LoadConfig env flags.configFile = (some config, none))
    (hquery : QueryVictoriaMetrics env config World.init = (.ok certs, w1))
    (hcerts : certs ≠ [])
    (hfilter : mainFilter env flags certs w1 = .ok (sel, w2))
    (hsel : sel ≠ []) :
    main env flags = (0, mainLoop env config flags.dryRun sel w2) := by
  unfold main
  simp [hflag, hload, hquery, hcerts, hfilter, hsel]

/-- The external commands of a whole run. -/
theorem main_execs (env : Env) (flags : Flags) :
    execs (main env flags).2.trace = []
      ∨ ∃ config certs sel w1 w2,
          LoadConfig env flags.configFile = (some config, none)
          ∧ QueryVictoriaMetrics env config World.init = (.ok certs, w1)
          ∧ mainFilter env flags certs w1 = .ok (sel, w2)
          ∧ execs (main env flags).2.trace
              = if flags.dryRun then []
                else (approved env 0 sel).map (revokeCommand config) := by
  unfold main
  by_cases hflag : flags.configFile = ""
  · left; simp [hflag, execs, World.init]
  · simp only [hflag, if_false]
    rcases hload : LoadConfig env flags.configFile with ⟨c, e⟩
    cases e with
    | some err => left; simp [execs, World.init]
    | none =>
      cases c with
      | none => left; simp [execs, World.init]
      | some config =>
        simp only
        have hw := QueryVictoriaMetrics_world env config World.init
        rcases hquery : QueryVictoriaMetrics env config World.init with ⟨r, w1⟩
        rw [hquery] at hw
        obtain ⟨hs1, -, he1, -⟩ := hw
        simp only at hs1 he1
        cases r with
        | error err => left; simp [he1]; rfl
        | ok certs =>
          simp only
          by_cases hlen : certs.length = 0
          · left; simp [hlen, he1]; rfl
          · simp only [hlen, if_false]
            cases hfilter : mainFilter env flags certs w1 with
            | error w2 =>
              left
              have := (mainFilter_error_world env flags certs w1 w2 hfilter).2.2.1
              simp [this, he1]; rfl
            | ok p =>
              obtain ⟨sel, w2⟩ := p
              obtain ⟨hs2, -, he2, -⟩ := mainFilter_ok_world env flags certs sel w1 w2 hfilter
              simp only
              by_cases hlen2 : sel.length = 0
              · left; simp [hlen2, he2, he1]; rfl
              · right
                refine ⟨config, certs, sel, w1, w2, rfl, hquery, hfilter, ?_⟩
                simp only [hlen2, if_false]
                rw [mainLoop_execs, he2, he1, hs2, hs1]
                simp [World.init, execs]

theorem QueryVictoriaMetrics_ok_client (env : Env) (config : Config) (w w1 : World)
    (certs : List Certificate) (h : QueryVictoriaMetrics env config w = (.ok certs, w1)) :
    ∃ client, CreateTLSClient env config = .ok client := by
  unfold QueryVictoriaMetrics at h
  cases hc : CreateTLSClient env config with
  | error err => simp [hc] at h
  | ok client => exact ⟨client, rfl⟩

/-- The external commands of a run whose configuration loads, whose discovery
succeeds and whose pattern, if any, compiles. -/
theorem main_execs_of_selected (env : Env) (flags : Flags) (config : Config)
    (certs sel : List Certificate) (w1 w2 : World)
    (hflag : flags.configFile ≠ "")
    (hload : LoadConfig env flags.configFile = (some config, none))
    (hquery : QueryVictoriaMetrics env config World.init = (.ok certs, w1))
    (hfilter : mainFilter env flags certs w1 = .ok (sel, w2)) :
    execs (main env flags).2.trace
      = if flags.dryRun then [] else (approved env 0 sel).map (revokeCommand config) := by
  have hw := QueryVictoriaMetrics_world env config World.init
  rw [hquery] at hw
  obtain ⟨hs1, -, he1, -⟩ := hw
  simp only at hs1 he1
  obtain ⟨hs2, -, he2, -⟩ := mainFilter_ok_world env flags certs sel w1 w2 hfilter
  have hinit : execs World.init.trace = [] := rfl
  have hinit2 : World.init.scans = 0 := rfl
  by_cases hcerts : certs = []
  · subst hcerts
    have hsel : sel = [] := by
      unfold mainFilter at hfilter
      by_cases hf : flags.filterRegex = ""
      · simp [hf] at hfilter
        exact hfilter.1
      · simp only [ne_eq, hf, not_false_eq_true, if_true] at hfilter
        cases hc : env.regexpCompile flags.filterRegex with
        | error err => simp [hc] at hfilter
        | ok regex =>
          simp [hc, FilterCertificates] at hfilter
          exact hfilter.1
    subst hsel
    unfold main
    simp [hflag, hload, hquery, he1, hinit, approved_nil]
  · by_cases hsel : sel = []
    · subst hsel
      unfold main
      simp [hflag, hload, hquery, hcerts, hfilter, he2, he1, hinit, approved_nil]
    · rw [main_reaches_loop env flags config certs sel w1 w2 hflag hload hquery hcerts
        hfilter hsel]
      simp only
      rw [mainLoop_execs, he2, he1, hs2, hs1, hinit, hinit2]
      simp

/-! ## Dry run -/

/-- C3: with `dryRun` set, `RevokeCertificate` returns nil and runs no
external command; hence a whole run with the dry-run switch set runs no
external command, whatever the operator answers. -/
theorem dry_run_runs_no_command (env : Env) (config : Config) (cert : Certificate)
    (w : World) (flags : Flags) (certs : List Certificate) :
    (RevokeCertificate env config cert true w).1 = none
      ∧ execs (RevokeCertificate env config cert true w).2.trace = execs w.trace
      ∧ (RevokeCertificate env config cert true w).2.runs = w.runs
      ∧ execs (mainLoop env config true certs w).trace = execs w.trace
      ∧ execs (main env { flags with dryRun := true }).2.trace = [] := by
  refine ⟨?_, ?_, ?_, ?_, ?_⟩
  · rw [RevokeCertificate_dry]
  · rw [RevokeCertificate_execs]; simp
  · rw [RevokeCertificate_dry]
  · rw [mainLoop_execs]; simp
  · rcases main_execs env { flags with dryRun := true } with h | ⟨_, _, _, _, _, -, -, -, h⟩
    · exact h
    · simpa using h

/-! ## Invalid patterns -/

/-- C6, as stated, fails: a run with the invalid pattern `(` issues the
discovery request before the pattern is looked at. -/
theorem invalid_pattern_discovery_runs_first :
    (∃ err, (demoEnv demoRows (fun _ => none) (fun _ => none)).regexpCompile "(" = .error err)
      ∧ httpGets (main (demoEnv demoRows (fun _ => none) (fun _ => none))
          ⟨"c.yaml", "(", false⟩).2.trace
          = ["https://vm.example/api/v1/query?query=x509_cert_expiry"]
      ∧ (main (demoEnv demoRows (fun _ => none) (fun _ => none)) ⟨"c.yaml", "(", false⟩).1 = 1 :=
  ⟨⟨_, rfl⟩, by decide, by decide⟩

/-- C6, amended: when the configuration loads and discovery returns at least
one descriptor, a non-empty pattern that does not compile ends the run with
exit code 1 right after discovery: the discovery request has been issued, and
no candidate is prompted or revoked. -/
theorem invalid_pattern_rejected_after_discovery (env : Env) (flags : Flags) (config : Config)
    (certs : List Certificate) (w1 : World) (err : Error)
    (hflag : flags.configFile ≠ "")
    (hload : LoadConfig env flags.configFile = (some config, none))
    (hquery : QueryVictoriaMetrics env config World.init = (.ok certs, w1))
    (hcerts : certs ≠ [])
    (hpattern : flags.filterRegex ≠ "")
    (hinvalid : env.regexpCompile flags.filterRegex = .error err) :
    main env flags
        = (1, w1.emit (.slog .error "Invalid regex"
            [("regex", .str flags.filterRegex), ("error", .str err)]))
      ∧ httpGets (main env flags).2.trace
          = [config.VMURL ++ "?" ++ env.urlEncode [("query", config.VMQuery)]]
      ∧ prints (main env flags).2.trace = []
      ∧ revokeCalls (main env flags).2.trace = []
      ∧ execs (main env flags).2.trace = [] := by
  have hmain : main env flags
      = (1, w1.emit (.slog .error "Invalid regex"
          [("regex", .str flags.filterRegex), ("error", .str err)])) := by
    unfold main
    simp [hflag, hload, hquery, hcerts, mainFilter, hpattern, hinvalid]
  have hw := QueryVictoriaMetrics_world env config World.init
  obtain ⟨client, hclient⟩ := QueryVictoriaMetrics_ok_client env config _ _ _ hquery
  rw [hquery, hclient] at hw
  obtain ⟨-, -, he, hp, hr, hg⟩ := hw
  simp only at he hp hr hg
  rw [hmain]
  refine ⟨rfl, ?_, ?_, ?_, ?_⟩
  · simp [hg]; rfl
  · simp [hp]; rfl
  · simp [hr]; rfl
  · simp [he]; rfl

/-- Worked instance of the amended C6: two rows discovered, pattern `(`. -/
theorem invalid_pattern_rejected_after_discovery_witness :
    httpGets (main (demoEnv demoRows (fun _ => some "y") (fun _ => none))
        ⟨"c.yaml", "(", false⟩).2.trace
        = ["https://vm.example/api/v1/query?query=x509_cert_expiry"]
      ∧ prints (main (demoEnv demoRows (fun _ => some "y") (fun _ => none))
          ⟨"c.yaml", "(", false⟩).2.trace = []
      ∧ execs (main (demoEnv demoRows (fun _ => some "y") (fun _ => none))
          ⟨"c.yaml", "(", false⟩).2.trace = [] := by
  have h := invalid_pattern_rejected_after_discovery
    (demoEnv demoRows (fun _ => some "y") (fun _ => none)) ⟨"c.yaml", "(", false⟩ demoConfig
    [⟨"svc-a", "ops", "111"⟩, ⟨"svc-b", "ops", "222"⟩]
    (QueryVictoriaMetrics (demoEnv demoRows (fun _ => some "y") (fun _ => none)) demoConfig
      World.init).2
    "error parsing regexp: missing closing )"
    (by decide) rfl (Prod.ext (by rfl) rfl) (by decide) (by decide) rfl
  exact ⟨h.2.1, h.2.2.1, h.2.2.2.2⟩

/-! ## Exit codes -/

/-- C7, as stated, fails: with zero discovered descriptors the run ends with
exit code 0 although the supplied pattern `(` does not compile. -/
theorem invalid_pattern_exit_zero_when_nothing_discovered :
    (∃ err, (demoEnv [] (fun _ => none) (fun _ => none)).regexpCompile "(" = .error err)
      ∧ (main (demoEnv [] (fun _ => none) (fun _ => none)) ⟨"c.yaml", "(", false⟩).1 = 0 :=
  ⟨⟨_, rfl⟩, by decide⟩

/-- C7, amended: the exit code is 1 exactly when the config argument is
missing, the configuration fails to load, discovery fails, or discovery
returns at least one descriptor and the supplied non-empty pattern does not
compile; it is 0 on every other run. -/
theorem exit_code_spec (env : Env) (flags : Flags) :
    ((main env flags).1 = 1 ↔
        flags.configFile = ""
        ∨ (∃ err, (LoadConfig env flags.configFile).2 = some err)
        ∨ (∃ config, LoadConfig env flags.configFile = (some config, none)
            ∧ ((∃ err, (QueryVictoriaMetrics env config World.init).1 = .error err)
              ∨ (∃ certs, (QueryVictoriaMetrics env config World.init).1 = .ok certs
                  ∧ certs ≠ [] ∧ flags.filterRegex ≠ ""
                  ∧ ∃ err, env.regexpCompile flags.filterRegex = .error err))))
      ∧ ((main env flags).1 ≠ 1 → (main env flags).1 = 0) := by
  unfold main
  by_cases hflag : flags.configFile = ""
  · simp [hflag]
  · simp only [hflag, if_false, false_or]
    have hnil := LoadConfig_not_nil env flags.configFile
    rcases hload : LoadConfig env flags.configFile with ⟨c, e⟩
    rw [hload] at hnil
    cases e with
    | some err => simp
    | none =>
      cases c with
      | none => exact absurd rfl hnil
      | some config =>
        simp only
        rcases hquery : QueryVictoriaMetrics env config World.init with ⟨r, w1⟩
        cases r with
        | error err => simp [hquery]
        | ok certs =>
          simp only
          by_cases hlen : certs = []
          · simp [hlen, hquery]
          · have hlen2 : certs.length ≠ 0 := by simpa using hlen
            simp only [hlen2, if_false]
            have hiff := mainFilter_error_iff env flags certs w1
            cases hfilter : mainFilter env flags certs w1 with
            | error w2 =>
              have := hiff.mp ⟨w2, hfilter⟩
              obtain ⟨e, he⟩ := this.2
              simp [hlen, hquery, this.1, he]
            | ok p =>
              have hno : ¬ (flags.filterRegex ≠ "" ∧
                  ∃ err, env.regexpCompile flags.filterRegex = .error err) := by
                intro h
                obtain ⟨w2, hw2⟩ := hiff.mpr h
                rw [hfilter] at hw2
                cases hw2
              obtain ⟨sel, w2⟩ := p
              by_cases hsel : sel.length = 0
              · simp only [hsel, if_true]
                simp [hlen, hquery]
                intro h
                exact fun e he => hno ⟨h, e, he⟩
              · simp only [hsel, if_false]
                simp [hlen, hquery]
                intro h
                exact fun e he => hno ⟨h, e, he⟩

/-! ## Empty serial numbers -/

/-- C9, as stated, fails: a row without a `serial` label yields a descriptor
with an empty serial number, and once approved in a live run the external
command is run for it, with the argument `serial_number=`. -/
theorem empty_serial_is_revoked :
    revokeCalls (main (demoEnv rowsWithoutSerial (fun _ => some "y") (fun _ => none))
        ⟨"c.yaml", "", false⟩).2.trace = [(⟨"svc-a", "ops", ""⟩, false)]
      ∧ execs (main (demoEnv rowsWithoutSerial (fun _ => some "y") (fun _ => none))
          ⟨"c.yaml", "", false⟩).2.trace
          = [("vault", ["write", "pki/revoke", "serial_number="])] :=
  ⟨by decide, by decide⟩

/-- C9, amended: the serial number is the revocation key and is used as it
is, empty or not: in a run that reaches selection, the external command is run
once for each selected descriptor the operator approves, in order, with the
argument `serial_number=<serial>`, when the run is live, and never in a dry
run; for an empty serial the argument is `serial_number=`. -/
theorem revocation_uses_serial_as_is (env : Env) (flags : Flags) (config : Config)
    (certs sel : List Certificate) (w1 w2 : World)
    (hflag : flags.configFile ≠ "")
    (hload : LoadConfig env flags.configFile = (some config, none))
    (hquery : QueryVictoriaMetrics env config World.init = (.ok certs, w1))
    (hfilter : mainFilter env flags certs w1 = .ok (sel, w2)) :
    execs (main env flags).2.trace
        = (if flags.dryRun then []
           else (((sel.enumFrom 0).filter fun ic => approves env ic.1).map fun ic =>
             ("vault", ["write", config.VaultPKIPath ++ "/revoke",
                        "serial_number=" ++ ic.2.SerialNumber])))
      ∧ (∀ c : Certificate, c.SerialNumber = "" →
          ("vault", ["write", config.VaultPKIPath ++ "/revoke",
                     "serial_number=" ++ c.SerialNumber])
            = ("vault", ["write", config.VaultPKIPath ++ "/revoke", "serial_number="])) := by
  refine ⟨?_, ?_⟩
  · rw [main_execs_of_selected env flags config certs sel w1 w2 hflag hload hquery hfilter]
    simp only [approved, List.map_map]
    rfl
  · intro c hc
    rw [hc]
    rfl

/-- Worked instance of the amended C9: a row without `serial`, selected by the
pattern `svc` and approved in a live run whose command fails. -/
theorem revocation_uses_serial_as_is_witness :
    execs (main (demoEnv rowsWithoutSerial (fun _ => some "Y") (fun _ => some "exit status 2"))
        ⟨"c.yaml", "svc", false⟩).2.trace
      = [("vault", ["write", "pki/revoke", "serial_number="])] := by
  have h := (revocation_uses_serial_as_is
    (demoEnv rowsWithoutSerial (fun _ => some "Y") (fun _ => some "exit status 2"))
    ⟨"c.yaml", "svc", false⟩ demoConfig [⟨"svc-a", "ops", ""⟩] [⟨"svc-a", "ops", ""⟩]
    (QueryVictoriaMetrics
      (demoEnv rowsWithoutSerial (fun _ => some "Y") (fun _ => some "exit status 2"))
      demoConfig World.init).2
    ((QueryVictoriaMetrics
      (demoEnv rowsWithoutSerial (fun _ => some "Y") (fun _ => some "exit status 2"))
      demoConfig World.init).2.emit
        (.slog .info "Certificates filtered by regex" [("count", .int 1), ("regex", .str "svc")]))
    (by decide) rfl (Prod.ext (by rfl) rfl) (by rfl)).1
  rw [h]
  decide

/-! ## Literal patterns -/

theorem not_meta_of_literal (c : Char) (h : metaChars.contains c = false) :
    c ≠ Char.ofNat 92 ∧ c ≠ '.' ∧ c ≠ '^' ∧ c ≠ '$' := by
  refine ⟨?_, ?_, ?_, ?_⟩ <;>
  · rintro rfl
    revert h
    decide

theorem parseItems_literal (p : List Char) (h : p.all (fun c => !metaChars.contains c) = true) :
    parseItems p = some (p.map Item.lit) := by
  induction p with
  | nil => rfl
  | cons c rest ih =>
    rw [List.all_cons, Bool.and_eq_true] at h
    have hc : metaChars.contains c = false := by simpa using h.1
    obtain ⟨h1, h2, h3, h4⟩ := not_meta_of_literal c hc
    unfold parseItems
    simp only [h1, h2, h3, h4, hc, if_false, ih h.2]
    simp

theorem matchHere_literal (p text : List Char) (atStart : Bool) :
    matchHere (p.map Item.lit) atStart text = true ↔ p <+: text := by
  induction p generalizing text atStart with
  | nil => simp [matchHere]
  | cons c rest ih =>
    cases text with
    | nil => simp [matchHere]
    | cons d text =>
      simp only [List.map_cons, matchHere, Bool.and_eq_true, decide_eq_true_eq, ih,
        List.cons_prefix_cons]
      constructor
      · rintro ⟨rfl, h⟩
        exact ⟨rfl, h⟩
      · rintro ⟨rfl, h⟩
        exact ⟨rfl, h⟩

theorem searchFrom_literal (p text : List Char) (atStart : Bool) :
    searchFrom (p.map Item.lit) atStart text = true ↔ p <:+: text := by
  induction text generalizing atStart with
  | nil => simp [searchFrom, matchHere_literal]
  | cons c text ih =>
    simp only [searchFrom, Bool.or_eq_true, matchHere_literal, ih, List.infix_cons_iff]

/-- The fragment is not substring search in disguise: metacharacters keep
their meaning.  The anchored pattern `^svc-a$` matches `svc-a` only, and
`svc.a` matches `svc-a` and `svcxa`. -/
theorem compileFragment_metacharacters :
    (∃ regex, compileFragment "^svc-a$" = some regex
        ∧ regex.MatchString "svc-a" = true ∧ regex.MatchString "svc-ab" = false
        ∧ regex.MatchString "my-svc-a" = false)
      ∧ (∃ regex, compileFragment "svc.a" = some regex
        ∧ regex.MatchString "svc-a" = true ∧ regex.MatchString "svcxa" = true
        ∧ regex.MatchString "svc.b" = false)
      ∧ (∃ regex, compileFragment "svc\\.a" = some regex
        ∧ regex.MatchString "my-svc.a" = true ∧ regex.MatchString "svc-a" = false)
      ∧ compileFragment "(svc" = none
      ∧ isLiteralPattern "svc-a" = true ∧ isLiteralPattern "svc.a" = false
      ∧ isLiteralPattern "^svc-a$" = false :=
  ⟨⟨_, rfl, by decide, by decide, by decide⟩, ⟨_, rfl, by decide, by decide, by decide⟩,
    ⟨_, rfl, by decide, by decide⟩, rfl, by decide, by decide, by decide⟩

/-- C10: selection is a search, not a full match: a pattern `p` made of
literal characters only (no metacharacter) compiles, the compiled pattern
matches a string exactly when the string contains `p`, and
`FilterCertificates` with it selects exactly the descriptors whose common name
contains `p` as a substring; so does the selection step of `main`, which
compiles the pattern as the operator gave it. -/
theorem FilterCertificates_literal_is_search (certs : List Certificate) (p : String)
    (hliteral : isLiteralPattern p = true) :
    ∃ regex : Regexp, compileFragment p = some regex
      ∧ (∀ s : String, regex.MatchString s = true ↔ p.data <:+: s.data)
      ∧ FilterCertificates certs regex
          = certs.filter (fun c => decide (p.data <:+: c.CommonName.data))
      ∧ (∀ c, c ∈ FilterCertificates certs regex ↔
          c ∈ certs ∧ p.data <:+: c.CommonName.data)
      ∧ (∀ (env : Env) (flags : Flags) (w : World),
          flags.filterRegex = p → p ≠ "" → env.regexpCompile p = .ok regex →
          ∃ w2, mainFilter env flags certs w
            = .ok (certs.filter (fun c => decide (p.data <:+: c.CommonName.data)), w2)) := by
  have hparse : parseItems p.data = some (p.data.map Item.lit) :=
    parseItems_literal p.data hliteral
  have hmatch : ∀ s : String,
      (Regexp.ofItems (p.data.map Item.lit)).MatchString s = true ↔ p.data <:+: s.data := by
    intro s
    exact searchFrom_literal p.data s.data true
  have hfilter : FilterCertificates certs (Regexp.ofItems (p.data.map Item.lit))
      = certs.filter (fun c => decide (p.data <:+: c.CommonName.data)) := by
    rw [FilterCertificates_eq_filter]
    congr 1
    funext c
    rw [Bool.eq_iff_iff, hmatch c.CommonName]
    simp
  refine ⟨Regexp.ofItems (p.data.map Item.lit), ?_, hmatch, hfilter, ?_, ?_⟩
  · simp [compileFragment, hparse]
  · intro c
    rw [hfilter, List.mem_filter]
    simp
  · intro env flags w hflag hne hcompile
    subst hflag
    unfold mainFilter
    simp only [ne_eq, hne, not_false_eq_true, if_true, hcompile, hfilter]
    exact ⟨_, rfl⟩

/-- Worked instance of C10: the pattern `svc-a` selects `svc-ab`, `svc-a` and
`my-svc-a`, and not `svc-b`. -/
theorem FilterCertificates_literal_is_search_witness :
    ∃ regex : Regexp, compileFragment "svc-a" = some regex
      ∧ FilterCertificates
          [⟨"svc-ab", "ops", "1"⟩, ⟨"svc-b", "ops", "2"⟩, ⟨"svc-a", "ops", "3"⟩,
           ⟨"my-svc-a", "ops", "4"⟩] regex
        = [⟨"svc-ab", "ops", "1"⟩, ⟨"svc-a", "ops", "3"⟩, ⟨"my-svc-a", "ops", "4"⟩] := by
  obtain ⟨regex, h1, -, h3, -⟩ := FilterCertificates_literal_is_search
    [⟨"svc-ab", "ops", "1"⟩, ⟨"svc-b", "ops", "2"⟩, ⟨"svc-a", "ops", "3"⟩,
     ⟨"my-svc-a", "ops", "4"⟩] "svc-a" (by decide)
  exact ⟨regex, h1, by rw [h3]; decide⟩

end VaultCertRevoker
